import Mathlib

/-!
# LeaseApp — verification of the lease-accounting core of `src/app.py`

Shallow embedding of the computational core of the application: the monthly
payment generator, the present-value engine, the amortization-schedule fold,
the journal-entry generator, and the portfolio aggregations grouped by period.

Modelling conventions:
* Python floats become exact rationals (`ℚ`); `round(x, 2)` becomes `round2`,
  rounding `100 * x` to the nearest integer (any nearest-rounding model keeps
  `|round2 x - x| ≤ 1/200`, which is all the tolerance facts below use).
* `lease_term` is an integer (`ℤ`); Python's `range(1, lease_term + 1)` has
  `lease_term.toNat` iterations.
* Calendar dates become month-granularity integers: the row for period `p`
  carries date `start_date + p - 1`, matching `start_date + DateOffset(months=p-1)`
  up to the order-preserving bijection between month offsets and integers.
* The schedule loop `for period in range(1, n+1): current = payments[period-1]`
  reads exactly the successive elements of `payments` (whose length is `n`), so
  it is embedded as a structural traversal of the payment list with an explicit
  period counter.
* Pandas `groupby("Period")` sorts the distinct keys ascending; it is embedded
  by filtering `List.range` below an upper bound, which enumerates the distinct
  period keys in increasing order.
-/

namespace LeaseApp

/-- One row of the amortization schedule produced by
`generate_amortization_schedule` (the dict appended to `schedule_rows`). -/
structure ScheduleRow where
  period : ℕ
  date : ℤ
  payment : ℚ
  interest_expense : ℚ
  principal : ℚ
  lease_liability_balance : ℚ
  rou_asset_amortization : ℚ
  rou_asset_balance : ℚ
deriving DecidableEq, Inhabited

/-- One journal line produced by `generate_monthly_journal_entries`. -/
structure JournalLine where
  date : ℤ
  period : ℕ
  account : String
  debit : ℚ
  credit : ℚ
deriving DecidableEq, Inhabited

/-- `generate_monthly_payments`: month `m` (1-indexed, here `k = m - 1`) pays
`base_payment * (1 + annual_escalation_rate) ^ ((m - 1) // 12)`.  The
`payment_timing` argument is accepted and ignored, exactly as in the source. -/
def generate_monthly_payments (base_payment : ℚ) (lease_term : ℤ)
    (annual_escalation_rate : ℚ) (payment_timing : String) : List ℚ :=
  (List.range lease_term.toNat).map
    (fun k => base_payment * (1 + annual_escalation_rate) ^ (k / 12))

/-- The accumulation loop of `present_value_of_varied_payments`: `i` is the
1-based index of `enumerate(payments, start=1)`; timing `"end"` discounts by
`(1+rate)^i`, anything else by `(1+rate)^(i-1)`. -/
def pvAux (monthly_rate : ℚ) (payment_timing : String) : ℕ → List ℚ → ℚ
  | _, [] => 0
  | i, pmt :: rest =>
      (if payment_timing = "end" then pmt / (1 + monthly_rate) ^ i
       else pmt / (1 + monthly_rate) ^ (i - 1)) +
      pvAux monthly_rate payment_timing (i + 1) rest

/-- `present_value_of_varied_payments`. -/
def present_value_of_varied_payments (payments : List ℚ) (monthly_rate : ℚ)
    (payment_timing : String) : ℚ :=
  pvAux monthly_rate payment_timing 1 payments

/-- The body of the `for period in range(1, lease_term+1)` loop of
`generate_amortization_schedule`, traversing the payment list with the running
`liability_balance` and `rou_asset` state.  `termQ` is `lease_term` as a
rational (the divisor of the Finance straight-line amortization). -/
def scheduleAux (monthly_rate : ℚ) (payment_timing lease_type : String)
    (total_lease_expense termQ : ℚ) (start_date : ℤ) :
    ℕ → List ℚ → ℚ → ℚ → List ScheduleRow
  | _, [], _, _ => []
  | period, current_payment :: rest, liability_balance, rou_asset =>
      let interest0 := liability_balance * monthly_rate
      let principal :=
        if payment_timing = "end" then current_payment - interest0 else current_payment
      let interest_expense :=
        if payment_timing = "end" then interest0
        else (liability_balance - principal) * monthly_rate
      let new_liability_balance := liability_balance - principal
      let rou_amortization :=
        if lease_type = "Operating" then total_lease_expense - interest_expense
        else rou_asset / termQ
      let rou_next :=
        if lease_type = "Operating" then rou_asset - rou_amortization else rou_asset
      { period := period
        date := start_date + (period : ℤ) - 1
        payment := current_payment
        interest_expense := interest_expense
        principal := principal
        lease_liability_balance := new_liability_balance
        rou_asset_amortization := rou_amortization
        rou_asset_balance := max rou_next 0 } ::
      scheduleAux monthly_rate payment_timing lease_type total_lease_expense termQ start_date
        (period + 1) rest new_liability_balance rou_next

/-- `generate_amortization_schedule`.  The present value of the payment stream
seeds both the lease liability and the ROU asset; `total_lease_expense` is
`sum(monthly_payments) / lease_term` (used only on the Operating branch). -/
def generate_amortization_schedule (lease_term : ℤ) (base_payment : ℚ)
    (annual_discount_rate annual_escalation_rate : ℚ) (start_date : ℤ)
    (payment_timing lease_type : String) : List ScheduleRow :=
  let monthly_payments :=
    generate_monthly_payments base_payment lease_term annual_escalation_rate payment_timing
  let monthly_rate := annual_discount_rate / 12
  let lease_liability :=
    present_value_of_varied_payments monthly_payments monthly_rate payment_timing
  let total_lease_expense := monthly_payments.sum / (lease_term : ℚ)
  scheduleAux monthly_rate payment_timing lease_type total_lease_expense (lease_term : ℚ)
    start_date 1 monthly_payments lease_liability lease_liability

/-- Python's `round(x, 2)`: round `100 * x` to the nearest integer, divide by
100. -/
def round2 (x : ℚ) : ℚ := ((round (100 * x) : ℤ) : ℚ) / 100

/-- The per-row block of `generate_monthly_journal_entries`: the journal lines
emitted for one schedule row (one per-period group). -/
def journalLinesForRow (lease_type : String) (row : ScheduleRow) : List JournalLine :=
  if lease_type = "Operating" then
    [⟨row.date, row.period, "Lease Expense", round2 row.payment, 0⟩,
     ⟨row.date, row.period, "Cash", 0, round2 row.payment⟩] ++
    (if row.rou_asset_amortization ≠ 0 then
      [⟨row.date, row.period, "ROU Asset Amortization Expense",
        round2 row.rou_asset_amortization, 0⟩,
       ⟨row.date, row.period, "Accumulated Amortization - ROU Asset", 0,
        round2 row.rou_asset_amortization⟩]
     else [])
  else
    [⟨row.date, row.period, "Interest Expense", round2 row.interest_expense, 0⟩,
     ⟨row.date, row.period, "Lease Liability", round2 row.principal, 0⟩,
     ⟨row.date, row.period, "Cash", 0, round2 row.payment⟩] ++
    (if row.rou_asset_amortization ≠ 0 then
      [⟨row.date, row.period, "Amortization Expense - ROU Asset",
        round2 row.rou_asset_amortization, 0⟩,
       ⟨row.date, row.period, "Accumulated Amortization - ROU Asset", 0,
        round2 row.rou_asset_amortization⟩]
     else [])

/-- `generate_monthly_journal_entries`: concatenate the per-row groups in
schedule order. -/
def generate_monthly_journal_entries (schedule : List ScheduleRow)
    (lease_type : String) : List JournalLine :=
  (schedule.map (journalLinesForRow lease_type)).flatten

/-- Sum of the `Debit` column of a list of journal lines. -/
def sumDebit (lines : List JournalLine) : ℚ := (lines.map (·.debit)).sum

/-- Sum of the `Credit` column of a list of journal lines. -/
def sumCredit (lines : List JournalLine) : ℚ := (lines.map (·.credit)).sum

/-- The inclusive `[start_date, end_date]` mask of the portfolio reports. -/
def inDateRange (start_date end_date : ℤ) (r : ScheduleRow) : Bool :=
  decide (start_date ≤ r.date ∧ r.date ≤ end_date)

/-- The distinct `Period` keys of a row set, in increasing order — the keys of
pandas `groupby("Period")` followed by `sort_values("Period")`. -/
def groupKeys (rows : List ScheduleRow) : List ℕ :=
  (List.range ((rows.map (·.period)).foldr max 0 + 1)).filter
    (fun k => rows.any (fun r => r.period == k))

/-- One row of the grouped liability report before the `Beginning Liability`
column is inserted. -/
structure LiabGroup where
  period : ℕ
  total_payment : ℚ
  total_interest : ℚ
  total_principal : ℚ
  ending_liability : ℚ
deriving DecidableEq, Inhabited

/-- One row of `portfolio_liab_by_period`'s output. -/
structure LiabPortfolioRow where
  period : ℕ
  beginning_liability : ℚ
  total_payment : ℚ
  total_interest : ℚ
  total_principal : ℚ
  ending_liability : ℚ
deriving DecidableEq, Inhabited

/-- One row of the grouped ROU report before the `Beginning ROU Asset` column
is inserted. -/
structure RouGroup where
  period : ℕ
  total_amortization : ℚ
  ending_rou : ℚ
deriving DecidableEq, Inhabited

/-- One row of `portfolio_rou_by_period`'s output. -/
structure RouPortfolioRow where
  period : ℕ
  beginning_rou : ℚ
  total_amortization : ℚ
  ending_rou : ℚ
deriving DecidableEq, Inhabited

/-- The column sums of the filtered rows sharing period key `k` (liability
report). -/
def liabGroupFor (rows : List ScheduleRow) (k : ℕ) : LiabGroup :=
  let g := rows.filter (fun r => r.period == k)
  ⟨k, (g.map (·.payment)).sum, (g.map (·.interest_expense)).sum,
    (g.map (·.principal)).sum, (g.map (·.lease_liability_balance)).sum⟩

/-- The column sums of the filtered rows sharing period key `k` (ROU report). -/
def rouGroupFor (rows : List ScheduleRow) (k : ℕ) : RouGroup :=
  let g := rows.filter (fun r => r.period == k)
  ⟨k, (g.map (·.rou_asset_amortization)).sum, (g.map (·.rou_asset_balance)).sum⟩

/-- The `Beginning Liability` insertion loop: the running beginning starts at
`0.0` and each subsequent beginning is the previous row's ending liability. -/
def addBeginningsLiab : ℚ → List LiabGroup → List LiabPortfolioRow
  | _, [] => []
  | prev, g :: rest =>
      ⟨g.period, prev, g.total_payment, g.total_interest, g.total_principal,
        g.ending_liability⟩ ::
      addBeginningsLiab g.ending_liability rest

/-- The `Beginning ROU Asset` insertion loop. -/
def addBeginningsRou : ℚ → List RouGroup → List RouPortfolioRow
  | _, [] => []
  | prev, g :: rest =>
      ⟨g.period, prev, g.total_amortization, g.ending_rou⟩ ::
      addBeginningsRou g.ending_rou rest

/-- `portfolio_liab_by_period`: union all schedules, filter by the inclusive
date range, group by period (keys ascending), sum the four columns, insert the
running beginning balances.  An empty lease mapping or an all-excluding filter
yields the empty report. -/
def portfolio_liab_by_period (all_leases : List (String × List ScheduleRow))
    (start_date end_date : ℤ) : List LiabPortfolioRow :=
  if all_leases = [] then []
  else
    let big := (all_leases.map (·.2)).flatten
    let filtered := big.filter (inDateRange start_date end_date)
    if filtered = [] then []
    else addBeginningsLiab 0 ((groupKeys filtered).map (liabGroupFor filtered))

/-- `portfolio_rou_by_period`: as `portfolio_liab_by_period` but summing the
ROU amortization and ending-ROU columns. -/
def portfolio_rou_by_period (all_leases : List (String × List ScheduleRow))
    (start_date end_date : ℤ) : List RouPortfolioRow :=
  if all_leases = [] then []
  else
    let big := (all_leases.map (·.2)).flatten
    let filtered := big.filter (inDateRange start_date end_date)
    if filtered = [] then []
    else addBeginningsRou 0 ((groupKeys filtered).map (rouGroupFor filtered))

/-- The per-period effective-interest recurrence of the loop body: with prior
liability balance `prior`, timing `"end"` (Arrears) accrues interest on the
pre-payment balance and the rest of the payment reduces principal; any other
timing (Advance, `"begin"`) takes the whole payment as principal and accrues
interest on the post-payment balance.  In both cases the stored balance is the
prior balance minus principal. -/
def rowRecurrence (monthly_rate : ℚ) (payment_timing : String) (prior : ℚ)
    (row : ScheduleRow) : Prop :=
  (if payment_timing = "end" then
      row.interest_expense = prior * monthly_rate ∧
      row.principal = row.payment - row.interest_expense
    else
      row.principal = row.payment ∧
      row.interest_expense = (prior - row.principal) * monthly_rate) ∧
  row.lease_liability_balance = prior - row.principal

/-- `RecurrenceFrom r tm prior rows`: every row of `rows` satisfies
`rowRecurrence` with the prior balance threaded from `prior` through the
stored `lease_liability_balance` of its predecessor. -/
def RecurrenceFrom (monthly_rate : ℚ) (payment_timing : String) :
    ℚ → List ScheduleRow → Prop
  | _, [] => True
  | prior, row :: rest =>
      rowRecurrence monthly_rate payment_timing prior row ∧
      RecurrenceFrom monthly_rate payment_timing row.lease_liability_balance rest

/-- The liability state left after the loop has consumed a payment list: each
step subtracts the period's principal (`payment - interest` for Arrears, the
full payment otherwise) from the running balance.  This is the balance stored
in the last emitted row. -/
def finalBalance (monthly_rate : ℚ) (payment_timing : String) :
    List ℚ → ℚ → ℚ
  | [], liab => liab
  | a :: t, liab =>
      finalBalance monthly_rate payment_timing t
        (liab - (if payment_timing = "end" then a - liab * monthly_rate else a))

/-! ## Structural lemmas about the schedule fold -/

section ScheduleLemmas

variable (monthly_rate : ℚ) (payment_timing lease_type : String)
  (total_lease_expense termQ : ℚ) (start_date : ℤ)

theorem scheduleAux_length (l : List ℚ) : ∀ (p : ℕ) (liab rou : ℚ),
    (scheduleAux monthly_rate payment_timing lease_type total_lease_expense termQ
      start_date p l liab rou).length = l.length := by
  induction l with
  | nil => intro p liab rou; simp [scheduleAux]
  | cons a t ih => intro p liab rou; simp [scheduleAux, ih]

theorem scheduleAux_map_period (l : List ℚ) : ∀ (p : ℕ) (liab rou : ℚ),
    (scheduleAux monthly_rate payment_timing lease_type total_lease_expense termQ
      start_date p l liab rou).map (·.period) = List.range' p l.length := by
  induction l with
  | nil => intro p liab rou; simp [scheduleAux]
  | cons a t ih =>
    intro p liab rou
    simp [scheduleAux, ih, List.range'_succ]

theorem scheduleAux_map_payment (l : List ℚ) : ∀ (p : ℕ) (liab rou : ℚ),
    (scheduleAux monthly_rate payment_timing lease_type total_lease_expense termQ
      start_date p l liab rou).map (·.payment) = l := by
  induction l with
  | nil => intro p liab rou; simp [scheduleAux]
  | cons a t ih => intro p liab rou; simp [scheduleAux, ih]

theorem scheduleAux_recurrence (l : List ℚ) : ∀ (p : ℕ) (liab rou : ℚ),
    RecurrenceFrom monthly_rate payment_timing liab
      (scheduleAux monthly_rate payment_timing lease_type total_lease_expense termQ
        start_date p l liab rou) := by
  induction l with
  | nil => intro p liab rou; simp [scheduleAux, RecurrenceFrom]
  | cons a t ih =>
    intro p liab rou
    by_cases h : payment_timing = "end"
    · subst h
      simp [scheduleAux, RecurrenceFrom, rowRecurrence, ih]
    · simp [scheduleAux, RecurrenceFrom, rowRecurrence, h, ih]

theorem scheduleAux_sum_principal (l : List ℚ) : ∀ (p : ℕ) (liab rou : ℚ),
    ((scheduleAux monthly_rate payment_timing lease_type total_lease_expense termQ
        start_date p l liab rou).map (·.principal)).sum
      = liab - finalBalance monthly_rate payment_timing l liab := by
  induction l with
  | nil => intro p liab rou; simp [scheduleAux, finalBalance]
  | cons a t ih =>
    intro p liab rou
    simp only [scheduleAux, finalBalance, List.map_cons, List.sum_cons]
    rw [ih]
    ring

end ScheduleLemmas

/-- In a row chain satisfying the per-period recurrence the last row's stored
balance is the starting balance minus the total principal. -/
theorem recurrence_getLast (monthly_rate : ℚ) (payment_timing : String) :
    ∀ (rows : List ScheduleRow) (liab : ℚ),
      RecurrenceFrom monthly_rate payment_timing liab rows → rows ≠ [] →
      ∃ row : ScheduleRow, rows.getLast? = some row ∧
        row.lease_liability_balance = liab - (rows.map (·.principal)).sum := by
  intro rows
  induction rows with
  | nil => intro liab _ h; exact absurd rfl h
  | cons a t ih =>
    intro liab hrec _
    obtain ⟨hhead, htail⟩ := hrec
    cases t with
    | nil =>
      refine ⟨a, by simp, ?_⟩
      rw [hhead.2]
      simp
    | cons b t2 =>
      obtain ⟨row, hlast, hbal⟩ := ih a.lease_liability_balance htail (by simp)
      refine ⟨row, ?_, ?_⟩
      · rw [List.getLast?_cons_cons]
        exact hlast
      · rw [hbal, hhead.2]
        simp only [List.map_cons, List.sum_cons]
        ring

/-! ## Present-value lemmas -/

theorem pvAux_end_shift (monthly_rate : ℚ) (h : 1 + monthly_rate ≠ 0) (l : List ℚ) :
    ∀ i : ℕ, pvAux monthly_rate "end" (i + 1) l * (1 + monthly_rate)
      = pvAux monthly_rate "end" i l := by
  induction l with
  | nil => intro i; simp [pvAux]
  | cons a t ih =>
    intro i
    simp only [pvAux, reduceIte, add_mul, ih]
    congr 1
    rw [pow_succ]
    field_simp
    ring

/-- Starting the Arrears amortization at the ordinary-annuity present value of
the payment stream drives the final liability balance exactly to zero. -/
theorem finalBalance_end_pv (monthly_rate : ℚ) (h : 1 + monthly_rate ≠ 0) :
    ∀ l : List ℚ,
      finalBalance monthly_rate "end" l (pvAux monthly_rate "end" 1 l) = 0 := by
  intro l
  induction l with
  | nil => simp [finalBalance, pvAux]
  | cons a t ih =>
    have hshift := pvAux_end_shift monthly_rate h t 1
    have hstep : pvAux monthly_rate "end" 1 (a :: t) -
        (a - pvAux monthly_rate "end" 1 (a :: t) * monthly_rate)
        = pvAux monthly_rate "end" 1 t := by
      have hP : pvAux monthly_rate "end" 1 (a :: t)
          = a / (1 + monthly_rate) + pvAux monthly_rate "end" 2 t := by
        simp [pvAux]
      rw [hP, ← hshift]
      field_simp
      ring
    simp only [finalBalance, reduceIte]
    rw [hstep]
    exact ih

/-- For any timing other than `"end"`, each step subtracts the full payment, so
the final balance is the start balance minus the payment total. -/
theorem finalBalance_nonend (monthly_rate : ℚ) (payment_timing : String)
    (h : payment_timing ≠ "end") :
    ∀ (l : List ℚ) (liab : ℚ),
      finalBalance monthly_rate payment_timing l liab = liab - l.sum := by
  intro l
  induction l with
  | nil => intro liab; simp [finalBalance]
  | cons a t ih =>
    intro liab
    simp only [finalBalance, if_neg h, List.sum_cons]
    rw [ih]
    ring

theorem pvAux_nonneg (monthly_rate : ℚ) (payment_timing : String)
    (h : 0 < 1 + monthly_rate) :
    ∀ (l : List ℚ), (∀ x ∈ l, 0 ≤ x) → ∀ i : ℕ,
      0 ≤ pvAux monthly_rate payment_timing i l := by
  intro l
  induction l with
  | nil => intro _ i; simp [pvAux]
  | cons a t ih =>
    intro hl i
    have ha : 0 ≤ a := hl a (by simp)
    have ht : ∀ x ∈ t, 0 ≤ x := fun x hx => hl x (by simp [hx])
    have htm : 0 ≤ pvAux monthly_rate payment_timing (i + 1) t := ih ht (i + 1)
    have h1 : 0 ≤ a / (1 + monthly_rate) ^ i := div_nonneg ha (pow_pos h i).le
    have h2 : 0 ≤ a / (1 + monthly_rate) ^ (i - 1) := div_nonneg ha (pow_pos h (i - 1)).le
    by_cases he : payment_timing = "end"
    · subst he
      simp only [pvAux, reduceIte]
      exact add_nonneg h1 htm
    · simp only [pvAux, if_neg he]
      exact add_nonneg h2 htm

theorem pvAux_begin_le_sum (monthly_rate : ℚ) (h : 0 < monthly_rate) :
    ∀ (l : List ℚ), (∀ x ∈ l, 0 ≤ x) → ∀ i : ℕ,
      pvAux monthly_rate "begin" i l ≤ l.sum := by
  intro l
  induction l with
  | nil => intro _ i; simp [pvAux]
  | cons a t ih =>
    intro hl i
    have ha : 0 ≤ a := hl a (by simp)
    have ht : ∀ x ∈ t, 0 ≤ x := fun x hx => hl x (by simp [hx])
    have hone : (1 : ℚ) ≤ (1 + monthly_rate) ^ (i - 1) :=
      one_le_pow₀ (by linarith)
    simp only [pvAux, List.sum_cons, if_neg (by decide : ¬ ("begin" = "end"))]
    exact add_le_add (div_le_self ha hone) (ih ht (i + 1))

/-- From index 2 on (exponent ≥ 1), the annuity-due present value of a
nonempty stream of positive payments is strictly below its nominal sum. -/
theorem pvAux_begin_lt_sum (monthly_rate : ℚ) (h : 0 < monthly_rate) :
    ∀ (l : List ℚ), l ≠ [] → (∀ x ∈ l, 0 < x) → ∀ i : ℕ, 2 ≤ i →
      pvAux monthly_rate "begin" i l < l.sum := by
  intro l hne hl i hi
  match l, hne with
  | a :: t, _ =>
    have ha : 0 < a := hl a (by simp)
    have ht : ∀ x ∈ t, 0 ≤ x := fun x hx => (hl x (by simp [hx])).le
    have hpow : (1 : ℚ) < (1 + monthly_rate) ^ (i - 1) :=
      one_lt_pow₀ (by linarith) (by omega)
    have hhead : a / (1 + monthly_rate) ^ (i - 1) < a := div_lt_self ha hpow
    have htail : pvAux monthly_rate "begin" (i + 1) t ≤ t.sum :=
      pvAux_begin_le_sum monthly_rate h t ht (i + 1)
    simp only [pvAux, List.sum_cons, if_neg (by decide : ¬ ("begin" = "end"))]
    exact add_lt_add_of_lt_of_le hhead htail

theorem generate_monthly_payments_pos (base_payment : ℚ) (lease_term : ℤ)
    (annual_escalation_rate : ℚ) (payment_timing : String)
    (hb : 0 < base_payment) (he : 0 ≤ annual_escalation_rate) :
    ∀ x ∈ generate_monthly_payments base_payment lease_term annual_escalation_rate
        payment_timing, 0 < x := by
  intro x hx
  simp only [generate_monthly_payments, List.mem_map, List.mem_range] at hx
  obtain ⟨k, _, rfl⟩ := hx
  have h1 : (0 : ℚ) < 1 + annual_escalation_rate := by linarith
  exact mul_pos hb (pow_pos h1 _)

theorem generate_monthly_payments_nonneg (base_payment : ℚ) (lease_term : ℤ)
    (annual_escalation_rate : ℚ) (payment_timing : String)
    (hb : 0 ≤ base_payment) (he : 0 ≤ annual_escalation_rate) :
    ∀ x ∈ generate_monthly_payments base_payment lease_term annual_escalation_rate
        payment_timing, 0 ≤ x := by
  intro x hx
  simp only [generate_monthly_payments, List.mem_map, List.mem_range] at hx
  obtain ⟨k, _, rfl⟩ := hx
  have h1 : (0 : ℚ) < 1 + annual_escalation_rate := by linarith
  exact mul_nonneg hb (pow_pos h1 _).le

theorem generate_monthly_payments_length (base_payment : ℚ) (lease_term : ℤ)
    (annual_escalation_rate : ℚ) (payment_timing : String) :
    (generate_monthly_payments base_payment lease_term annual_escalation_rate
      payment_timing).length = lease_term.toNat := by
  simp [generate_monthly_payments]

/-! ## Row-membership lemmas about the schedule fold -/

section ScheduleMemLemmas

variable (monthly_rate : ℚ) (payment_timing lease_type : String)
  (total_lease_expense termQ : ℚ) (start_date : ℤ)

/-- Every timing other than `"end"` takes the whole payment as principal, so
the `Principal` column is the payment stream itself. -/
theorem scheduleAux_nonend_map_principal (h : payment_timing ≠ "end") (l : List ℚ) :
    ∀ (p : ℕ) (liab rou : ℚ),
      (scheduleAux monthly_rate payment_timing lease_type total_lease_expense termQ
        start_date p l liab rou).map (·.principal) = l := by
  induction l with
  | nil => intro p liab rou; simp [scheduleAux]
  | cons a t ih => intro p liab rou; simp [scheduleAux, h, ih]

/-- Arrears rows split the payment exactly into interest plus principal. -/
theorem scheduleAux_end_split (l : List ℚ) : ∀ (p : ℕ) (liab rou : ℚ),
    ∀ row ∈ scheduleAux monthly_rate "end" lease_type total_lease_expense termQ
        start_date p l liab rou,
      row.interest_expense + row.principal = row.payment := by
  induction l with
  | nil => intro p liab rou row hrow; simp [scheduleAux] at hrow
  | cons a t ih =>
    intro p liab rou row hrow
    simp only [scheduleAux, reduceIte, List.mem_cons] at hrow
    rcases hrow with hrow | hrow
    · subst hrow
      simp only
      ring
    · exact ih (p + 1) _ _ row hrow

/-- On any non-Operating branch the ROU accumulator is never changed: every
row reports balance `max rou 0` and amortization `rou / termQ`. -/
theorem scheduleAux_nonoperating_rou (h : lease_type ≠ "Operating") (l : List ℚ) :
    ∀ (p : ℕ) (liab rou : ℚ),
      ∀ row ∈ scheduleAux monthly_rate payment_timing lease_type total_lease_expense termQ
          start_date p l liab rou,
        row.rou_asset_balance = max rou 0 ∧ row.rou_asset_amortization = rou / termQ := by
  induction l with
  | nil => intro p liab rou row hrow; simp [scheduleAux] at hrow
  | cons a t ih =>
    intro p liab rou row hrow
    simp only [scheduleAux, if_neg h, List.mem_cons] at hrow
    rcases hrow with hrow | hrow
    · subst hrow
      exact ⟨rfl, rfl⟩
    · exact ih (p + 1) _ _ row hrow

end ScheduleMemLemmas

/-! ## Silent-defaulting lemmas: unrecognized timing and lease type -/

theorem pvAux_nonend_eq (monthly_rate : ℚ) (payment_timing : String)
    (h : payment_timing ≠ "end") (l : List ℚ) : ∀ i : ℕ,
    pvAux monthly_rate payment_timing i l = pvAux monthly_rate "begin" i l := by
  induction l with
  | nil => intro i; simp [pvAux]
  | cons a t ih =>
    intro i
    simp [pvAux, h, if_neg (by decide : ¬ ("begin" = "end")), ih]

theorem scheduleAux_nonend_eq (monthly_rate : ℚ) (payment_timing lease_type : String)
    (total_lease_expense termQ : ℚ) (start_date : ℤ)
    (h : payment_timing ≠ "end") (l : List ℚ) : ∀ (p : ℕ) (liab rou : ℚ),
    scheduleAux monthly_rate payment_timing lease_type total_lease_expense termQ
        start_date p l liab rou
      = scheduleAux monthly_rate "begin" lease_type total_lease_expense termQ
        start_date p l liab rou := by
  induction l with
  | nil => intro p liab rou; simp [scheduleAux]
  | cons a t ih =>
    intro p liab rou
    simp [scheduleAux, h, if_neg (by decide : ¬ ("begin" = "end")), ih]

theorem scheduleAux_nonoperating_eq (monthly_rate : ℚ) (payment_timing lease_type : String)
    (total_lease_expense termQ : ℚ) (start_date : ℤ)
    (h : lease_type ≠ "Operating") (l : List ℚ) : ∀ (p : ℕ) (liab rou : ℚ),
    scheduleAux monthly_rate payment_timing lease_type total_lease_expense termQ
        start_date p l liab rou
      = scheduleAux monthly_rate payment_timing "Finance" total_lease_expense termQ
        start_date p l liab rou := by
  induction l with
  | nil => intro p liab rou; simp [scheduleAux]
  | cons a t ih =>
    intro p liab rou
    simp [scheduleAux, h, if_neg (by decide : ¬ ("Finance" = "Operating")), ih]

theorem journalLinesForRow_nonoperating (lease_type : String)
    (h : lease_type ≠ "Operating") (row : ScheduleRow) :
    journalLinesForRow lease_type row = journalLinesForRow "Finance" row := by
  simp [journalLinesForRow, h]

/-! ## Rounding lemmas -/

theorem round2_sub_le (x : ℚ) : |round2 x - x| ≤ 1 / 200 := by
  have h : |((round (100 * x) : ℤ) : ℚ) - 100 * x| ≤ 1 / 2 := by
    rw [abs_sub_comm]
    exact abs_sub_round (100 * x)
  have heq : round2 x - x = (((round (100 * x) : ℤ) : ℚ) - 100 * x) / 100 := by
    rw [round2]; ring
  rw [heq, abs_div, show |(100 : ℚ)| = 100 by norm_num]
  linarith

/-- Two 2-decimal roundings against the rounding of their exact sum disagree
by at most one cent: the discrepancy is an integer number of cents of absolute
value at most 3/2 cents, hence at most one cent. -/
theorem round2_add_balanced {a b c : ℚ} (h : a + b = c) :
    |round2 a + round2 b - round2 c| ≤ 1 / 100 := by
  set A : ℤ := round (100 * a) with hA
  set B : ℤ := round (100 * b) with hB
  set C : ℤ := round (100 * c) with hC
  have ha : |(A : ℚ) - 100 * a| ≤ 1 / 2 := by
    rw [abs_sub_comm]; exact abs_sub_round _
  have hb : |(B : ℚ) - 100 * b| ≤ 1 / 2 := by
    rw [abs_sub_comm]; exact abs_sub_round _
  have hc : |(C : ℚ) - 100 * c| ≤ 1 / 2 := by
    rw [abs_sub_comm]; exact abs_sub_round _
  have hsum : ((A + B - C : ℤ) : ℚ)
      = ((A : ℚ) - 100 * a) + ((B : ℚ) - 100 * b) - ((C : ℚ) - 100 * c) := by
    push_cast
    linear_combination (100 : ℚ) * h
  have habs : |((A + B - C : ℤ) : ℚ)| ≤ 3 / 2 := by
    rw [hsum]
    have h1 := abs_le.mp ha
    have h2 := abs_le.mp hb
    have h3 := abs_le.mp hc
    exact abs_le.mpr ⟨by linarith [h1.1, h2.1, h3.2], by linarith [h1.2, h2.2, h3.1]⟩
  have hint : |A + B - C| ≤ 1 := by
    have h2 : |((A + B - C : ℤ) : ℚ)| < 2 := lt_of_le_of_lt habs (by norm_num)
    have h3 : |A + B - C| < 2 := by
      rw [← Int.cast_abs] at h2
      exact_mod_cast h2
    omega
  have heq : round2 a + round2 b - round2 c = ((A + B - C : ℤ) : ℚ) / 100 := by
    rw [round2, round2, round2, ← hA, ← hB, ← hC]
    push_cast
    ring
  rw [heq, abs_div, show |(100 : ℚ)| = 100 by norm_num]
  have : |((A + B - C : ℤ) : ℚ)| ≤ 1 := by
    rw [← Int.cast_abs]
    exact_mod_cast hint
  linarith

/-! ## Per-group journal balance lemmas -/

theorem journal_operating_balanced (row : ScheduleRow) :
    sumDebit (journalLinesForRow "Operating" row)
      = sumCredit (journalLinesForRow "Operating" row) := by
  by_cases h : row.rou_asset_amortization = 0 <;>
    simp [journalLinesForRow, sumDebit, sumCredit, h]

theorem journal_nonoperating_balanced (lease_type : String)
    (hlt : lease_type ≠ "Operating") (row : ScheduleRow)
    (hsplit : row.interest_expense + row.principal = row.payment) :
    |sumDebit (journalLinesForRow lease_type row)
      - sumCredit (journalLinesForRow lease_type row)| ≤ 1 / 100 := by
  have key := round2_add_balanced hsplit
  by_cases h : row.rou_asset_amortization = 0
  · simp only [journalLinesForRow, if_neg hlt, h, ne_eq, not_true_eq_false, if_false,
      List.append_nil, sumDebit, sumCredit, List.map_cons, List.map_nil, List.sum_cons,
      List.sum_nil]
    have : round2 row.interest_expense + (round2 row.principal + (0 + 0)) -
        (0 + (0 + (round2 row.payment + 0)))
        = round2 row.interest_expense + round2 row.principal - round2 row.payment := by
      ring
    rw [this]
    exact key
  · simp only [journalLinesForRow, if_neg hlt, h, ne_eq, not_false_eq_true, if_true,
      sumDebit, sumCredit, List.map_append, List.sum_append, List.map_cons, List.map_nil,
      List.sum_cons, List.sum_nil]
    have : round2 row.interest_expense + (round2 row.principal + (0 + 0)) +
        (round2 row.rou_asset_amortization + (0 + 0)) -
        (0 + (0 + (round2 row.payment + 0)) + (0 + (round2 row.rou_asset_amortization + 0)))
        = round2 row.interest_expense + round2 row.principal - round2 row.payment := by
      ring
    rw [this]
    exact key

/-! ## Portfolio-report lemmas -/

theorem groupKeys_pairwise (rows : List ScheduleRow) :
    List.Pairwise (· < ·) (groupKeys rows) :=
  List.Pairwise.sublist (List.filter_sublist _) (List.pairwise_lt_range _)

theorem liabGroupFor_period (rows : List ScheduleRow) (k : ℕ) :
    (liabGroupFor rows k).period = k := rfl

theorem rouGroupFor_period (rows : List ScheduleRow) (k : ℕ) :
    (rouGroupFor rows k).period = k := rfl

theorem addBeginningsLiab_map_period (l : List LiabGroup) : ∀ prev : ℚ,
    (addBeginningsLiab prev l).map (·.period) = l.map (·.period) := by
  induction l with
  | nil => intro prev; simp [addBeginningsLiab]
  | cons g t ih => intro prev; simp [addBeginningsLiab, ih]

theorem addBeginningsRou_map_period (l : List RouGroup) : ∀ prev : ℚ,
    (addBeginningsRou prev l).map (·.period) = l.map (·.period) := by
  induction l with
  | nil => intro prev; simp [addBeginningsRou]
  | cons g t ih => intro prev; simp [addBeginningsRou, ih]

theorem addBeginningsLiab_chain (l : List LiabGroup) : ∀ prev : ℚ,
    List.Chain' (fun a b => b.beginning_liability = a.ending_liability)
      (addBeginningsLiab prev l) := by
  induction l with
  | nil => intro prev; simp [addBeginningsLiab]
  | cons g t ih =>
    intro prev
    cases t with
    | nil => simp [addBeginningsLiab]
    | cons g2 t2 =>
      simp only [addBeginningsLiab]
      exact List.Chain'.cons rfl
        (by simpa [addBeginningsLiab] using ih g.ending_liability)

theorem addBeginningsRou_chain (l : List RouGroup) : ∀ prev : ℚ,
    List.Chain' (fun a b => b.beginning_rou = a.ending_rou)
      (addBeginningsRou prev l) := by
  induction l with
  | nil => intro prev; simp [addBeginningsRou]
  | cons g t ih =>
    intro prev
    cases t with
    | nil => simp [addBeginningsRou]
    | cons g2 t2 =>
      simp only [addBeginningsRou]
      exact List.Chain'.cons rfl
        (by simpa [addBeginningsRou] using ih g.ending_rou)

theorem addBeginningsLiab_first (l : List LiabGroup) (prev : ℚ)
    (h : addBeginningsLiab prev l ≠ []) :
    ∃ r t, addBeginningsLiab prev l = r :: t ∧ r.beginning_liability = prev := by
  cases l with
  | nil => simp [addBeginningsLiab] at h
  | cons g t => exact ⟨_, _, rfl, rfl⟩

theorem addBeginningsRou_first (l : List RouGroup) (prev : ℚ)
    (h : addBeginningsRou prev l ≠ []) :
    ∃ r t, addBeginningsRou prev l = r :: t ∧ r.beginning_rou = prev := by
  cases l with
  | nil => simp [addBeginningsRou] at h
  | cons g t => exact ⟨_, _, rfl, rfl⟩

theorem map_period_liabGroups (rows : List ScheduleRow) (ks : List ℕ) :
    ((ks.map (liabGroupFor rows)).map (·.period)) = ks := by
  rw [List.map_map]
  have h : ((fun g : LiabGroup => g.period) ∘ liabGroupFor rows) = id := rfl
  rw [h, List.map_id]

theorem map_period_rouGroups (rows : List ScheduleRow) (ks : List ℕ) :
    ((ks.map (rouGroupFor rows)).map (·.period)) = ks := by
  rw [List.map_map]
  have h : ((fun g : RouGroup => g.period) ∘ rouGroupFor rows) = id := rfl
  rw [h, List.map_id]

/-- The `getD` form of the payment-stream formula: month `m` (1-indexed) pays
`base_payment * (1 + escalation) ^ ((m - 1) / 12)`. -/
theorem generate_monthly_payments_getD (base_payment : ℚ) (lease_term : ℤ)
    (annual_escalation_rate : ℚ) (payment_timing : String) (m : ℕ)
    (h1 : 1 ≤ m) (h2 : (m : ℤ) ≤ lease_term) :
    (generate_monthly_payments base_payment lease_term annual_escalation_rate
      payment_timing).getD (m - 1) 0
      = base_payment * (1 + annual_escalation_rate) ^ ((m - 1) / 12) := by
  have hm : m - 1 < lease_term.toNat := by omega
  simp [generate_monthly_payments, List.getD_eq_getElem?_getD, hm]

/-- An annuity-due present value of at least two positive payments at a
positive rate is strictly below the nominal payment total. -/
theorem pv_begin_lt_total (monthly_rate : ℚ) (h : 0 < monthly_rate)
    (l : List ℚ) (hl : 2 ≤ l.length) (hpos : ∀ x ∈ l, 0 < x) :
    pvAux monthly_rate "begin" 1 l < l.sum := by
  match l, hl with
  | a :: b :: t, _ =>
    have htail : pvAux monthly_rate "begin" 2 (b :: t) < (b :: t).sum :=
      pvAux_begin_lt_sum monthly_rate h (b :: t) (by simp)
        (fun x hx => hpos x (List.mem_cons_of_mem a hx)) 2 le_rfl
    have hexp : pvAux monthly_rate "begin" 1 (a :: b :: t)
        = a + pvAux monthly_rate "begin" 2 (b :: t) := by
      simp [pvAux]
    rw [hexp, List.sum_cons]
    linarith

/-! ## The claims -/

/-- **C3**: every generated schedule satisfies the per-period effective-interest
recurrence threaded from the initial liability, which is the present value of
the full payment stream: Arrears rows accrue interest on the prior balance and
split the payment into interest plus principal; Advance rows take the whole
payment as principal and accrue interest on the post-payment balance; in both
cases the stored balance is the prior balance minus principal.  The `Payment`
column is exactly the generated payment stream. -/
theorem claim_schedule_recurrence (lease_term : ℤ)
    (base_payment annual_discount_rate annual_escalation_rate : ℚ) (start_date : ℤ)
    (payment_timing lease_type : String) :
    RecurrenceFrom (annual_discount_rate / 12) payment_timing
      (present_value_of_varied_payments
        (generate_monthly_payments base_payment lease_term annual_escalation_rate
          payment_timing)
        (annual_discount_rate / 12) payment_timing)
      (generate_amortization_schedule lease_term base_payment annual_discount_rate
        annual_escalation_rate start_date payment_timing lease_type) ∧
    (generate_amortization_schedule lease_term base_payment annual_discount_rate
        annual_escalation_rate start_date payment_timing lease_type).map (·.payment)
      = generate_monthly_payments base_payment lease_term annual_escalation_rate
          payment_timing := by
  constructor
  · exact scheduleAux_recurrence (annual_discount_rate / 12) payment_timing lease_type
      _ _ start_date _ 1 _ _
  · exact scheduleAux_map_payment (annual_discount_rate / 12) payment_timing lease_type
      _ _ start_date _ 1 _ _

/-- **C5**: for a valid input (`lease_term ≥ 1`) the schedule has exactly
`lease_term` rows with period indices `1, 2, …, lease_term`. -/
theorem claim_schedule_length (lease_term : ℤ)
    (base_payment annual_discount_rate annual_escalation_rate : ℚ) (start_date : ℤ)
    (payment_timing lease_type : String) (h : 0 < lease_term) :
    (generate_amortization_schedule lease_term base_payment annual_discount_rate
        annual_escalation_rate start_date payment_timing lease_type).length
      = lease_term.toNat ∧
    (generate_amortization_schedule lease_term base_payment annual_discount_rate
        annual_escalation_rate start_date payment_timing lease_type).map (·.period)
      = List.range' 1 lease_term.toNat := by
  constructor
  · simp only [generate_amortization_schedule]
    rw [scheduleAux_length, generate_monthly_payments_length]
  · simp only [generate_amortization_schedule]
    rw [scheduleAux_map_period, generate_monthly_payments_length]

/-- Witness for C5 at `lease_term = 2`. -/
theorem claim_schedule_length_witness :
    (0 : ℤ) < 2 ∧
    ((generate_amortization_schedule 2 1000 (5 / 100) 0 0 "end" "Operating").length
        = (2 : ℤ).toNat ∧
      (generate_amortization_schedule 2 1000 (5 / 100) 0 0 "end" "Operating").map (·.period)
        = List.range' 1 (2 : ℤ).toNat) :=
  ⟨by decide, claim_schedule_length 2 1000 (5 / 100) 0 0 "end" "Operating" (by decide)⟩

/-- **C6**: month `m` (1-indexed) of the payment stream pays
`base_payment * (1 + escalation) ^ ((m - 1) / 12)`: escalation compounds once
per complete 12-month block.  In particular with term 24, base 1000 and
escalation 5%, months 1–12 pay 1000 and months 13–24 pay 1050. -/
theorem claim_payment_formula :
    (∀ (base_payment : ℚ) (lease_term : ℤ) (annual_escalation_rate : ℚ)
        (payment_timing : String) (m : ℕ), 1 ≤ m → (m : ℤ) ≤ lease_term →
        (generate_monthly_payments base_payment lease_term annual_escalation_rate
          payment_timing).getD (m - 1) 0
          = base_payment * (1 + annual_escalation_rate) ^ ((m - 1) / 12)) ∧
    (∀ m ∈ List.range' 1 12,
        (generate_monthly_payments 1000 24 (5 / 100) "end").getD (m - 1) 0 = 1000) ∧
    (∀ m ∈ List.range' 13 12,
        (generate_monthly_payments 1000 24 (5 / 100) "end").getD (m - 1) 0 = 1050) := by
  refine ⟨fun b t e tm m h1 h2 => generate_monthly_payments_getD b t e tm m h1 h2,
    ?_, ?_⟩
  · intro m hm
    rw [List.mem_range'_1] at hm
    rw [generate_monthly_payments_getD 1000 24 (5 / 100) "end" m hm.1
      (by exact_mod_cast Nat.le_of_lt_succ (by omega))]
    have h12 : (m - 1) / 12 = 0 := by omega
    rw [h12]
    norm_num
  · intro m hm
    rw [List.mem_range'_1] at hm
    rw [generate_monthly_payments_getD 1000 24 (5 / 100) "end" m (by omega)
      (by exact_mod_cast Nat.le_of_lt_succ (by omega))]
    have h12 : (m - 1) / 12 = 1 := by omega
    rw [h12]
    norm_num

/-- Witness for C6 at month 13 of the 24-month, 5%-escalation example. -/
theorem claim_payment_formula_witness :
    1 ≤ 13 ∧ ((13 : ℕ) : ℤ) ≤ 24 ∧
    (generate_monthly_payments 1000 24 (5 / 100) "end").getD (13 - 1) 0
      = 1000 * (1 + 5 / 100) ^ ((13 - 1) / 12) :=
  ⟨by decide, by decide,
    claim_payment_formula.1 1000 24 (5 / 100) "end" 13 (by decide) (by decide)⟩

/-- **C4**: for Arrears timing the `Principal` column sums exactly (in exact
rational arithmetic, hence a fortiori within any floating-point tolerance) to
the initial lease liability — the ordinary-annuity present value of the full
payment stream; equivalently the final balance is exactly zero.  The only
hypothesis is that the discount factor `1 + rate/12` is nonzero (at
`rate = -12` the Python source would divide by zero). -/
theorem claim_arrears_principal_sum (lease_term : ℤ)
    (base_payment annual_discount_rate annual_escalation_rate : ℚ) (start_date : ℤ)
    (lease_type : String) (h : 1 + annual_discount_rate / 12 ≠ 0) :
    ((generate_amortization_schedule lease_term base_payment annual_discount_rate
        annual_escalation_rate start_date "end" lease_type).map (·.principal)).sum
      = present_value_of_varied_payments
          (generate_monthly_payments base_payment lease_term annual_escalation_rate "end")
          (annual_discount_rate / 12) "end" := by
  simp only [generate_amortization_schedule]
  rw [scheduleAux_sum_principal]
  simp only [present_value_of_varied_payments]
  rw [finalBalance_end_pv (annual_discount_rate / 12) h]
  ring

/-- Witness for C4 at a 3-month, 6%-rate, 2%-escalation Arrears lease. -/
theorem claim_arrears_principal_sum_witness :
    (1 + (6 / 100 : ℚ) / 12 ≠ 0) ∧
    ((generate_amortization_schedule 3 1000 (6 / 100) (2 / 100) 0 "end" "Operating").map
        (·.principal)).sum
      = present_value_of_varied_payments
          (generate_monthly_payments 1000 3 (2 / 100) "end") ((6 / 100) / 12) "end" :=
  ⟨by norm_num,
    claim_arrears_principal_sum 3 1000 (6 / 100) (2 / 100) 0 "Operating" (by norm_num)⟩

/-- **C9** (implicit): on the Finance branch the ROU accumulator is never
decremented, so every row reports the same `ROU_Asset_Balance`, equal to the
initial present value, while `ROU_Asset_Amortization` is the constant
`PV / lease_term`: the reported ROU balance never declines. -/
theorem claim_finance_rou_constant (lease_term : ℤ)
    (base_payment annual_discount_rate annual_escalation_rate : ℚ) (start_date : ℤ)
    (payment_timing : String)
    (hb : 0 ≤ base_payment) (he : 0 ≤ annual_escalation_rate)
    (hd : 0 ≤ annual_discount_rate) :
    ∀ row ∈ generate_amortization_schedule lease_term base_payment annual_discount_rate
        annual_escalation_rate start_date payment_timing "Finance",
      row.rou_asset_balance
        = present_value_of_varied_payments
            (generate_monthly_payments base_payment lease_term annual_escalation_rate
              payment_timing) (annual_discount_rate / 12) payment_timing ∧
      row.rou_asset_amortization
        = present_value_of_varied_payments
            (generate_monthly_payments base_payment lease_term annual_escalation_rate
              payment_timing) (annual_discount_rate / 12) payment_timing
          / (lease_term : ℚ) := by
  intro row hrow
  have hpv : 0 ≤ present_value_of_varied_payments
      (generate_monthly_payments base_payment lease_term annual_escalation_rate
        payment_timing) (annual_discount_rate / 12) payment_timing := by
    simp only [present_value_of_varied_payments]
    exact pvAux_nonneg (annual_discount_rate / 12) payment_timing (by linarith) _
      (generate_monthly_payments_nonneg _ _ _ _ hb he) 1
  simp only [generate_amortization_schedule] at hrow
  have hmem := scheduleAux_nonoperating_rou (annual_discount_rate / 12) payment_timing
    "Finance" _ _ start_date (by decide) _ 1 _ _ row hrow
  exact ⟨by rw [hmem.1]; exact max_eq_left hpv, hmem.2⟩

/-- Witness for C9 at a 1-month zero-rate Finance lease. -/
theorem claim_finance_rou_constant_witness :
    (0 : ℚ) ≤ 1000 ∧
    ((⟨1, 0, 1000, 0, 1000, 0, 1000, 1000⟩ : ScheduleRow) ∈
      generate_amortization_schedule 1 1000 0 0 0 "end" "Finance") ∧
    ((⟨1, 0, 1000, 0, 1000, 0, 1000, 1000⟩ : ScheduleRow).rou_asset_balance
        = present_value_of_varied_payments (generate_monthly_payments 1000 1 0 "end")
            (0 / 12) "end" ∧
      (⟨1, 0, 1000, 0, 1000, 0, 1000, 1000⟩ : ScheduleRow).rou_asset_amortization
        = present_value_of_varied_payments (generate_monthly_payments 1000 1 0 "end")
            (0 / 12) "end" / ((1 : ℤ) : ℚ)) := by
  have hmem : (⟨1, 0, 1000, 0, 1000, 0, 1000, 1000⟩ : ScheduleRow) ∈
      generate_amortization_schedule 1 1000 0 0 0 "end" "Finance" := by
    simp [generate_amortization_schedule, generate_monthly_payments,
      present_value_of_varied_payments, pvAux, scheduleAux, List.range_succ, max_def]
  exact ⟨by norm_num, hmem,
    claim_finance_rou_constant 1 1000 0 0 0 "end" (by norm_num) (by norm_num)
      (by norm_num) _ hmem⟩

/-- **C10** (implicit, amended): with Advance timing every period's principal
is the full nominal payment, so the principal column is the payment stream and
the final balance is `PV - Σ payments`; with positive rate, positive payments
and `lease_term ≥ 2` that final balance is strictly negative.  (At
`lease_term = 1` the annuity-due present value equals the single payment and
the final balance is exactly zero — see the counterexample.) -/
theorem claim_advance_schedule (lease_term : ℤ)
    (base_payment annual_discount_rate annual_escalation_rate : ℚ) (start_date : ℤ)
    (lease_type : String) :
    ((generate_amortization_schedule lease_term base_payment annual_discount_rate
        annual_escalation_rate start_date "begin" lease_type).map (·.principal)
      = generate_monthly_payments base_payment lease_term annual_escalation_rate
          "begin") ∧
    (0 < lease_term →
      ∃ row, (generate_amortization_schedule lease_term base_payment annual_discount_rate
          annual_escalation_rate start_date "begin" lease_type).getLast? = some row ∧
        row.lease_liability_balance
          = present_value_of_varied_payments
              (generate_monthly_payments base_payment lease_term annual_escalation_rate
                "begin") (annual_discount_rate / 12) "begin"
            - (generate_monthly_payments base_payment lease_term annual_escalation_rate
                "begin").sum) ∧
    (0 < annual_discount_rate → 0 < base_payment → 0 ≤ annual_escalation_rate →
      2 ≤ lease_term →
      ∃ row, (generate_amortization_schedule lease_term base_payment annual_discount_rate
          annual_escalation_rate start_date "begin" lease_type).getLast? = some row ∧
        row.lease_liability_balance < 0) := by
  have hmap : (generate_amortization_schedule lease_term base_payment annual_discount_rate
      annual_escalation_rate start_date "begin" lease_type).map (·.principal)
      = generate_monthly_payments base_payment lease_term annual_escalation_rate
          "begin" := by
    simp only [generate_amortization_schedule]
    exact scheduleAux_nonend_map_principal (annual_discount_rate / 12) "begin" lease_type
      _ _ start_date (by decide) _ 1 _ _
  have hrec : RecurrenceFrom (annual_discount_rate / 12) "begin"
      (present_value_of_varied_payments
        (generate_monthly_payments base_payment lease_term annual_escalation_rate "begin")
        (annual_discount_rate / 12) "begin")
      (generate_amortization_schedule lease_term base_payment annual_discount_rate
        annual_escalation_rate start_date "begin" lease_type) := by
    exact scheduleAux_recurrence (annual_discount_rate / 12) "begin" lease_type
      _ _ start_date _ 1 _ _
  have hlast : 0 < lease_term →
      ∃ row, (generate_amortization_schedule lease_term base_payment annual_discount_rate
          annual_escalation_rate start_date "begin" lease_type).getLast? = some row ∧
        row.lease_liability_balance
          = present_value_of_varied_payments
              (generate_monthly_payments base_payment lease_term annual_escalation_rate
                "begin") (annual_discount_rate / 12) "begin"
            - (generate_monthly_payments base_payment lease_term annual_escalation_rate
                "begin").sum := by
    intro hterm
    have hlen : (generate_amortization_schedule lease_term base_payment
        annual_discount_rate annual_escalation_rate start_date "begin"
        lease_type).length = lease_term.toNat := by
      simp only [generate_amortization_schedule]
      rw [scheduleAux_length, generate_monthly_payments_length]
    have hne : generate_amortization_schedule lease_term base_payment
        annual_discount_rate annual_escalation_rate start_date "begin" lease_type
        ≠ [] := by
      intro hnil
      rw [hnil] at hlen
      simp at hlen
      omega
    obtain ⟨row, h1, h2⟩ := recurrence_getLast _ _ _ _ hrec hne
    exact ⟨row, h1, by rw [h2, hmap]⟩
  refine ⟨hmap, hlast, ?_⟩
  intro hd hb he h2t
  obtain ⟨row, h1, h2⟩ := hlast (by omega)
  refine ⟨row, h1, ?_⟩
  rw [h2]
  have hlt : present_value_of_varied_payments
      (generate_monthly_payments base_payment lease_term annual_escalation_rate "begin")
      (annual_discount_rate / 12) "begin"
      < (generate_monthly_payments base_payment lease_term annual_escalation_rate
          "begin").sum := by
    simp only [present_value_of_varied_payments]
    apply pv_begin_lt_total (annual_discount_rate / 12) (by linarith) _ ?_
      (generate_monthly_payments_pos _ _ _ _ hb he)
    rw [generate_monthly_payments_length]
    omega
  linarith

/-- Counterexample to C10 as stated: at `lease_term = 1` with a positive rate
and a positive payment, the Advance schedule's final liability balance is
exactly 0, not strictly negative — the schedule does amortize to zero. -/
theorem claim_advance_cex :
    ¬ (((generate_amortization_schedule 1 1000 (12 / 100) 0 0 "begin" "Finance").getD 0
        default).lease_liability_balance < 0) ∧
    (generate_amortization_schedule 1 1000 (12 / 100) 0 0 "begin" "Finance").map
        (·.lease_liability_balance) = [0] := by
  constructor
  · simp [generate_amortization_schedule, generate_monthly_payments,
      present_value_of_varied_payments, pvAux, scheduleAux, List.range_succ]
  · simp [generate_amortization_schedule, generate_monthly_payments,
      present_value_of_varied_payments, pvAux, scheduleAux, List.range_succ]

/-- Witness for the amended C10 at a 2-month, 12%-rate Advance lease. -/
theorem claim_advance_schedule_witness :
    (0 : ℚ) < 12 / 100 ∧ (0 : ℚ) < 1200 ∧ (0 : ℚ) ≤ 0 ∧ (2 : ℤ) ≤ 2 ∧
    ∃ row, (generate_amortization_schedule 2 1200 (12 / 100) 0 0 "begin"
        "Finance").getLast? = some row ∧ row.lease_liability_balance < 0 :=
  ⟨by norm_num, by norm_num, le_refl 0, by decide,
    (claim_advance_schedule 2 1200 (12 / 100) 0 0 "Finance").2.2 (by norm_num)
      (by norm_num) (le_refl 0) (by decide)⟩

/-- **C1** (amended): for every schedule row, the per-period journal group is
balanced within ±0.01 whenever the lease is Operating (any timing) or the
timing is Arrears; for Arrears rows `interest_expense + principal = payment`
holds exactly by construction.  For a Finance lease with Advance timing the
group need not balance (see the counterexample): there the debits are
`interest + principal` against a cash credit of `payment = principal`, so the
group is out of balance by the rounded interest. -/
theorem claim_journal_balanced (lease_term : ℤ)
    (base_payment annual_discount_rate annual_escalation_rate : ℚ) (start_date : ℤ)
    (payment_timing lease_type : String) (row : ScheduleRow)
    (hrow : row ∈ generate_amortization_schedule lease_term base_payment
      annual_discount_rate annual_escalation_rate start_date payment_timing lease_type) :
    (payment_timing = "end" →
      row.interest_expense + row.principal = row.payment) ∧
    (lease_type = "Operating" ∨ payment_timing = "end" →
      |sumDebit (journalLinesForRow lease_type row)
        - sumCredit (journalLinesForRow lease_type row)| ≤ 1 / 100) := by
  have hsplit : payment_timing = "end" →
      row.interest_expense + row.principal = row.payment := by
    intro htm
    subst htm
    simp only [generate_amortization_schedule] at hrow
    exact scheduleAux_end_split (annual_discount_rate / 12) lease_type _ _ start_date
      _ 1 _ _ row hrow
  refine ⟨hsplit, ?_⟩
  intro hcase
  by_cases hop : lease_type = "Operating"
  · subst hop
    rw [journal_operating_balanced row]
    simp
  · have htm : payment_timing = "end" := hcase.resolve_left hop
    exact journal_nonoperating_balanced lease_type hop row (hsplit htm)

/-- Counterexample to C1 as stated: for a 2-month Finance lease with Advance
timing at a 12% annual rate, the first period's journal group has debits
`round(interest) + round(principal) = 11.88 + 1200` against credits `1200`, an
imbalance of 11.88, far beyond ±0.01. -/
theorem claim_journal_balanced_cex :
    1 / 100 <
      |sumDebit (journalLinesForRow "Finance"
          ((generate_amortization_schedule 2 1200 (12 / 100) 0 0 "begin"
            "Finance").getD 0 default))
        - sumCredit (journalLinesForRow "Finance"
          ((generate_amortization_schedule 2 1200 (12 / 100) 0 0 "begin"
            "Finance").getD 0 default))| := by
  simp [generate_amortization_schedule, generate_monthly_payments,
    present_value_of_varied_payments, pvAux, scheduleAux, List.range_succ,
    journalLinesForRow, sumDebit, sumCredit, round2, round_eq]
  norm_num [abs_of_pos]

/-- Witness for the amended C1: the single row of a 1-month zero-rate
Operating lease yields a balanced journal group. -/
theorem claim_journal_balanced_witness :
    ((⟨1, 0, 1000, 0, 1000, 0, 1000, 0⟩ : ScheduleRow) ∈
      generate_amortization_schedule 1 1000 0 0 0 "end" "Operating") ∧
    |sumDebit (journalLinesForRow "Operating" ⟨1, 0, 1000, 0, 1000, 0, 1000, 0⟩)
      - sumCredit (journalLinesForRow "Operating" ⟨1, 0, 1000, 0, 1000, 0, 1000, 0⟩)|
      ≤ 1 / 100 := by
  have hmem : (⟨1, 0, 1000, 0, 1000, 0, 1000, 0⟩ : ScheduleRow) ∈
      generate_amortization_schedule 1 1000 0 0 0 "end" "Operating" := by
    simp [generate_amortization_schedule, generate_monthly_payments,
      present_value_of_varied_payments, pvAux, scheduleAux, List.range_succ]
  exact ⟨hmem,
    (claim_journal_balanced 1 1000 0 0 0 "end" "Operating" _ hmem).2 (Or.inl rfl)⟩

/-- **C2** (amended): the schedule generator performs no input validation and
never raises a descriptive `InvalidInput` error.  A non-positive `lease_term`
silently yields an empty schedule (in the Python source the single corner
`lease_term = 0` with an Operating lease instead dies of a `ZeroDivisionError`
computing `sum(payments)/lease_term`, so that corner is excluded here); any
`lease_type` other than `"Operating"` is silently treated as Finance, in both
schedule and journal generation; any `payment_timing` other than `"end"` is
silently treated as Advance (`"begin"`). -/
theorem claim_no_validation (lease_term : ℤ)
    (base_payment annual_discount_rate annual_escalation_rate : ℚ) (start_date : ℤ)
    (payment_timing lease_type : String) :
    (lease_term ≤ 0 → (lease_term < 0 ∨ lease_type ≠ "Operating") →
      generate_amortization_schedule lease_term base_payment annual_discount_rate
        annual_escalation_rate start_date payment_timing lease_type = []) ∧
    (lease_type ≠ "Operating" →
      generate_amortization_schedule lease_term base_payment annual_discount_rate
        annual_escalation_rate start_date payment_timing lease_type
        = generate_amortization_schedule lease_term base_payment annual_discount_rate
          annual_escalation_rate start_date payment_timing "Finance" ∧
      journalLinesForRow lease_type = journalLinesForRow "Finance") ∧
    (payment_timing ≠ "end" →
      generate_amortization_schedule lease_term base_payment annual_discount_rate
        annual_escalation_rate start_date payment_timing lease_type
        = generate_amortization_schedule lease_term base_payment annual_discount_rate
          annual_escalation_rate start_date "begin" lease_type) := by
  refine ⟨?_, ?_, ?_⟩
  · intro h1 _
    have h0 : lease_term.toNat = 0 := by omega
    simp [generate_amortization_schedule, generate_monthly_payments, h0, scheduleAux]
  · intro h
    constructor
    · simp only [generate_amortization_schedule]
      exact scheduleAux_nonoperating_eq _ _ _ _ _ _ h _ 1 _ _
    · funext r
      exact journalLinesForRow_nonoperating lease_type h r
  · intro h
    simp only [generate_amortization_schedule, present_value_of_varied_payments]
    rw [scheduleAux_nonend_eq _ _ _ _ _ _ h]
    rw [show generate_monthly_payments base_payment lease_term annual_escalation_rate
        payment_timing
        = generate_monthly_payments base_payment lease_term annual_escalation_rate
          "begin" from rfl]
    rw [pvAux_nonend_eq (annual_discount_rate / 12) payment_timing h _ 1]

/-- Counterexample to C2 as stated: `lease_term = 0` with a Finance lease
produces an empty schedule with no error; lease type `"Banana"` silently
behaves exactly as `"Finance"`; payment timing `"halfway"` silently behaves
exactly as `"begin"`.  Nothing fails fast. -/
theorem claim_no_validation_cex :
    generate_amortization_schedule 0 1000 (5 / 100) 0 0 "end" "Finance" = [] ∧
    generate_amortization_schedule 2 1000 0 0 0 "end" "Banana"
      = generate_amortization_schedule 2 1000 0 0 0 "end" "Finance" ∧
    generate_amortization_schedule 2 1000 0 0 0 "halfway" "Operating"
      = generate_amortization_schedule 2 1000 0 0 0 "begin" "Operating" := by
  refine ⟨?_, ?_, ?_⟩ <;>
    simp [generate_amortization_schedule, generate_monthly_payments,
      present_value_of_varied_payments, pvAux, scheduleAux, List.range_succ]

/-- Witness for the amended C2 at `lease_term = 0`, Finance. -/
theorem claim_no_validation_witness :
    (0 : ℤ) ≤ 0 ∧ ((0 : ℤ) < 0 ∨ ("Finance" : String) ≠ "Operating") ∧
    generate_amortization_schedule 0 1000 (5 / 100) 0 0 "end" "Finance" = [] :=
  ⟨le_refl 0, Or.inr (by decide),
    (claim_no_validation 0 1000 (5 / 100) 0 0 "end" "Finance").1 (le_refl 0)
      (Or.inr (by decide))⟩

/-- **C7**: every non-empty by-period portfolio report (liability and ROU) has
rows sorted strictly ascending by period key, its first row's beginning
balance is 0, and each subsequent row's beginning balance equals the preceding
row's ending balance. -/
theorem claim_portfolio_rollforward (all_leases : List (String × List ScheduleRow))
    (start_date end_date : ℤ) :
    (portfolio_liab_by_period all_leases start_date end_date ≠ [] →
      List.Pairwise (· < ·)
        ((portfolio_liab_by_period all_leases start_date end_date).map (·.period)) ∧
      (∃ r t, portfolio_liab_by_period all_leases start_date end_date = r :: t ∧
        r.beginning_liability = 0) ∧
      List.Chain' (fun a b => b.beginning_liability = a.ending_liability)
        (portfolio_liab_by_period all_leases start_date end_date)) ∧
    (portfolio_rou_by_period all_leases start_date end_date ≠ [] →
      List.Pairwise (· < ·)
        ((portfolio_rou_by_period all_leases start_date end_date).map (·.period)) ∧
      (∃ r t, portfolio_rou_by_period all_leases start_date end_date = r :: t ∧
        r.beginning_rou = 0) ∧
      List.Chain' (fun a b => b.beginning_rou = a.ending_rou)
        (portfolio_rou_by_period all_leases start_date end_date)) := by
  constructor
  · intro hne
    simp only [portfolio_liab_by_period] at hne ⊢
    split_ifs at hne ⊢ with h1 h2
    · exact absurd rfl hne
    · exact absurd rfl hne
    · refine ⟨?_, ?_, ?_⟩
      · rw [addBeginningsLiab_map_period, map_period_liabGroups]
        exact groupKeys_pairwise _
      · exact addBeginningsLiab_first _ 0 hne
      · exact addBeginningsLiab_chain _ 0
  · intro hne
    simp only [portfolio_rou_by_period] at hne ⊢
    split_ifs at hne ⊢ with h1 h2
    · exact absurd rfl hne
    · exact absurd rfl hne
    · refine ⟨?_, ?_, ?_⟩
      · rw [addBeginningsRou_map_period, map_period_rouGroups]
        exact groupKeys_pairwise _
      · exact addBeginningsRou_first _ 0 hne
      · exact addBeginningsRou_chain _ 0

/-- Witness for C7 on a one-lease, one-row portfolio. -/
theorem claim_portfolio_rollforward_witness :
    portfolio_liab_by_period [("A", [⟨1, 0, 1, 1, 1, 1, 1, 1⟩])] 0 0 ≠ [] ∧
    (List.Pairwise (· < ·)
        ((portfolio_liab_by_period [("A", [⟨1, 0, 1, 1, 1, 1, 1, 1⟩])] 0 0).map
          (·.period)) ∧
      (∃ r t, portfolio_liab_by_period [("A", [⟨1, 0, 1, 1, 1, 1, 1, 1⟩])] 0 0
          = r :: t ∧ r.beginning_liability = 0) ∧
      List.Chain' (fun a b => b.beginning_liability = a.ending_liability)
        (portfolio_liab_by_period [("A", [⟨1, 0, 1, 1, 1, 1, 1, 1⟩])] 0 0)) := by
  have hne : portfolio_liab_by_period [("A", [⟨1, 0, 1, 1, 1, 1, 1, 1⟩])] 0 0 ≠ [] := by
    simp [portfolio_liab_by_period, inDateRange, groupKeys, liabGroupFor,
      addBeginningsLiab, List.range_succ]
  exact ⟨hne, (claim_portfolio_rollforward _ 0 0).1 hne⟩

/-- **C8**: an empty lease mapping, or a date filter excluding every row,
yields an empty portfolio report (both liability and ROU) rather than an
error. -/
theorem claim_portfolio_empty (all_leases : List (String × List ScheduleRow))
    (start_date end_date : ℤ) :
    (portfolio_liab_by_period [] start_date end_date = [] ∧
      portfolio_rou_by_period [] start_date end_date = []) ∧
    ((∀ r ∈ (all_leases.map (·.2)).flatten,
        ¬ (start_date ≤ r.date ∧ r.date ≤ end_date)) →
      portfolio_liab_by_period all_leases start_date end_date = [] ∧
      portfolio_rou_by_period all_leases start_date end_date = []) := by
  refine ⟨⟨by simp [portfolio_liab_by_period], by simp [portfolio_rou_by_period]⟩, ?_⟩
  intro hall
  have hfilt : List.filter (inDateRange start_date end_date)
      ((all_leases.map (·.2)).flatten) = [] := by
    rw [List.filter_eq_nil_iff]
    intro a ha
    simpa [inDateRange] using hall a ha
  constructor
  · by_cases h1 : all_leases = [] <;> simp [portfolio_liab_by_period, h1, hfilt]
  · by_cases h1 : all_leases = [] <;> simp [portfolio_rou_by_period, h1, hfilt]

/-- Witness for C8 on a window that excludes the only row. -/
theorem claim_portfolio_empty_witness :
    (∀ r ∈ (([("A", [⟨1, 5, 1, 1, 1, 1, 1, 1⟩])] :
        List (String × List ScheduleRow)).map (·.2)).flatten,
      ¬ ((0 : ℤ) ≤ r.date ∧ r.date ≤ 1)) ∧
    (portfolio_liab_by_period [("A", [⟨1, 5, 1, 1, 1, 1, 1, 1⟩])] 0 1 = [] ∧
      portfolio_rou_by_period [("A", [⟨1, 5, 1, 1, 1, 1, 1, 1⟩])] 0 1 = []) := by
  have hall : ∀ r ∈ (([("A", [⟨1, 5, 1, 1, 1, 1, 1, 1⟩])] :
      List (String × List ScheduleRow)).map (·.2)).flatten,
      ¬ ((0 : ℤ) ≤ r.date ∧ r.date ≤ 1) := by
    intro r hr
    simp only [List.map_cons, List.map_nil, List.flatten, List.append_nil,
      List.mem_cons, List.not_mem_nil, or_false] at hr
    subst hr
    decide
  exact ⟨hall, (claim_portfolio_empty _ 0 1).2 hall⟩

end LeaseApp
